import Mathlib

/-!
Shallow embedding of gPodder's extension subsystem (`src/gpodder/extensions.py`):
metadata parsing results, `ExtensionMetadata.check_ui`, `ExtensionContainer.set_enabled`
/ `load_extension`, the `call_extensions` dispatch decorator, `ExtensionManager`
discovery (`_find_extensions`) and the configuration-change observer
(`_config_value_changed`).

External collaborators are modelled as parameters or opaque data:
* `gpodder.ui` (a bag of boolean UI flags) is a `UICtx` association list;
  `getattr(gpodder.ui, name, False)` is `getattrUI`.
* `gpodder.gettext` (`_`) is taken as the identity on strings, so the category
  labels are the literal English strings from the source.
* The dynamic import performed by `load_extension` is represented by a
  `LoadOutcome` field on the container: either the module object the import
  would produce, or the exception it would raise.  Python exceptions are the
  inductive `PyExc`; the classes `MissingDependency`/`MissingModule`/
  `MissingCommand` from the source are its constructors.
* Registration of `DefaultConfig` into the host configuration system is a side
  effect outside this subsystem and is not represented; the persisted
  enabled-extension set (`config.extensions.enabled`) is modelled explicitly
  because `_config_value_changed` mutates it.
-/

namespace Gpodder

/-- Python exceptions relevant to this subsystem.  `importError` carries the
optional `.name` attribute of an `ImportError`; `missingDependency`,
`missingModule` and `missingCommand` mirror the exception classes defined in
`extensions.py` (message and `dependency` payload); `other` is any other
exception, identified by its message. -/
inductive PyExc where
  | importError (name : Option String)
  | missingDependency (msg : String) (dep : String)
  | missingModule (msg : String) (dep : String)
  | missingCommand (msg : String) (dep : String)
  | other (msg : String)
deriving DecidableEq, Repr

/-- A metadata mapping: association list from field name to string value,
as produced by `ExtensionContainer._load_metadata`. -/
abbrev Metadata := List (String × String)

/-- Association-list lookup, the model of Python dict / attribute access. -/
def alookup {α : Type} : List (String × α) → String → Option α
  | [], _ => Option.none
  | (k, v) :: rest, key => if k = key then Option.some v else alookup rest key

/-- `metadata.get(key)` / attribute lookup on the metadata dict. -/
def lookupField (md : Metadata) (key : String) : Option String :=
  alookup md key

/-- `metadata[key] = value`: replace the value at `key` in place, or append. -/
def setField : Metadata → String → String → Metadata
  | [], key, v => [(key, v)]
  | (k, w) :: rest, key, v =>
    if k = key then (key, v) :: rest else (k, w) :: setField rest key v

/-- `CATEGORY_DICT` from the source (gettext taken as the identity). -/
def CATEGORY_DICT : List (String × String) :=
  [("desktop-integration", "Desktop Integration"),
   ("interface", "Interface"),
   ("post-download", "Post download")]

/-- `DEFAULT_CATEGORY = _('Other')`. -/
def DEFAULT_CATEGORY : String := "Other"

/-- `CATEGORY_DICT.get(category, DEFAULT_CATEGORY)`. -/
def categoryLabel (key : String) : String :=
  (alookup CATEGORY_DICT key).getD DEFAULT_CATEGORY

/-- `ExtensionMetadata.__init__`: insert the container's name as `title` when
absent, then replace `category` by the resolved display label
(`CATEGORY_DICT.get(metadata.get('category', 'other'), DEFAULT_CATEGORY)`). -/
def mkMetadata (name : String) (metadata : Metadata) : Metadata :=
  let md1 := if (lookupField metadata "title").isSome then metadata
             else setField metadata "title" name
  setField md1 "category" (categoryLabel ((lookupField md1 "category").getD "other"))

/-- The `gpodder.ui` object: boolean flags by (lowercase) attribute name. -/
abbrev UICtx := List (String × Bool)

/-- `getattr(gpodder.ui, name, False)`. -/
def getattrUI (ctx : UICtx) (name : String) : Bool :=
  (alookup ctx name).getD false

/-- Python `str.split(',')` on the character list: split at every comma,
keeping empty pieces (`''.split(',') == ['']`). -/
def pySplitComma : List Char → List Char → List (List Char)
  | [], acc => [acc.reverse]
  | c :: rest, acc =>
    if c = ',' then acc.reverse :: pySplitComma rest []
    else pySplitComma rest (c :: acc)

/-- Python `str.strip()`: drop leading and trailing whitespace. -/
def pyStrip (cs : List Char) : List Char :=
  ((cs.dropWhile Char.isWhitespace).reverse.dropWhile Char.isWhitespace).reverse

/-- Python `str.lower()` (the UI flag names are ASCII). -/
def pyLower (s : String) : String :=
  String.mk (s.toList.map Char.toLower)

/-- The token list of `check_ui`:
`[_f for _f in [x.strip() for x in value.split(',')] if _f]`. -/
def uiTokens (value : String) : List String :=
  ((pySplitComma value.toList []).map (fun cs => String.mk (pyStrip cs))).filter
    (fun t => t ≠ "")

/-- `ExtensionMetadata.check_ui(target, default)`.  The targets used by the
source (`only_for`, `mandatory_in`, `disable_in`) have no entry in the
`DEFAULTS` fallback table, so `hasattr(self, target)` is exactly presence in
the instance dict, i.e. `lookupField`. -/
def check_ui (ctx : UICtx) (md : Metadata) (target : String) (default : Bool) : Bool :=
  match lookupField md target with
  | Option.none => default
  | Option.some value =>
    (uiTokens value).any (fun ui => getattrUI ctx (pyLower ui))

/-- `ExtensionMetadata.available_for_current_ui`. -/
def available_for_current_ui (ctx : UICtx) (md : Metadata) : Bool :=
  check_ui ctx md "only_for" true

/-- `ExtensionMetadata.mandatory_in_current_ui`. -/
def mandatory_in_current_ui (ctx : UICtx) (md : Metadata) : Bool :=
  check_ui ctx md "mandatory_in" false

/-- `ExtensionMetadata.disable_in_current_ui`. -/
def disable_in_current_ui (ctx : UICtx) (md : Metadata) : Bool :=
  check_ui ctx md "disable_in" false

/-- A return value of an extension hook, as seen by the aggregation logic of
`call_extensions`: Python `None`, a list (of opaque entries, e.g. menu tuples
modelled as label/callback-name pairs), or any other (scalar) value. -/
inductive Value where
  | none
  | vlist (xs : List (String × String))
  | scalar (s : String)
deriving DecidableEq, Repr

/-- A loaded extension instance (`module_file.gPodderExtension(self)`).
`onLoad` / `onUnload` are `none` when the instance has no such attribute;
otherwise their value records whether invoking the hook returns normally or
raises.  `hooks` maps a lifecycle-hook name to the behaviour of invoking it
with the dispatch call's arguments (absent name = attribute not defined). -/
structure Module where
  onLoad : Option (Except PyExc Unit) := Option.none
  onUnload : Option (Except PyExc Unit) := Option.none
  hooks : List (String × Except PyExc Value) := []

/-- `getattr(container.module, method_name, None)` followed by invocation. -/
def lookupHook (m : Module) (methodName : String) : Option (Except PyExc Value) :=
  alookup m.hooks methodName

/-- What the dynamic import in `load_extension` would do for this container's
file: produce a module object, or raise. -/
inductive LoadOutcome where
  | ok (m : Module)
  | raise (e : PyExc)

/-- `ExtensionContainer` state (the fields the lifecycle logic reads/writes;
`metadata` is the post-`__init__` field mapping). -/
structure Container where
  name : String
  filename : String
  module : Option Module := Option.none
  enabled : Bool := false
  error : Option PyExc := Option.none
  metadata : Metadata := []
  loadOutcome : LoadOutcome := LoadOutcome.raise (PyExc.other "no file")

/-- `ExtensionContainer.load_extension`: no-op when a module is already
loaded; silent skip (module stays `none`) when the metadata is not available
for the current UI; otherwise perform the import, which either installs the
instance as `module` or raises. -/
def load_extension (ctx : UICtx) (c : Container) : Except PyExc Container :=
  if c.module.isSome then Except.ok c
  else if !(available_for_current_ui ctx c.metadata) then Except.ok c
  else match c.loadOutcome with
    | LoadOutcome.ok m => Except.ok { c with module := Option.some m }
    | LoadOutcome.raise e => Except.error e

/-- The `isinstance(exception, ImportError)` normalisation in `set_enabled`:
an `ImportError` with a truthy `.name` is replaced by
`MissingCommand(_('Python module not found: %(module)s'), name, exception)`;
every other exception is stored verbatim. -/
def wrapImportError : PyExc → PyExc
  | PyExc.importError (Option.some n) =>
    if n = "" then PyExc.importError (Option.some n)
    else PyExc.missingCommand ("Python module not found: " ++ n) n
  | e => e

/-- `ExtensionContainer.set_enabled(enabled)`.  Returns the updated container
together with the list of `logger.error` messages emitted.  On enable: load,
clear the error, mark enabled, then call `on_load` if the module defines it;
any exception from the load or from `on_load` is caught, logged, normalised by
`wrapImportError`, stored as `error`, and the container is marked disabled.
On disable: call `on_unload` if defined (failures logged and swallowed) and
mark disabled. -/
def set_enabled (ctx : UICtx) (c : Container) (enabled : Bool) :
    Container × List String :=
  if enabled && !c.enabled then
    match load_extension ctx c with
    | Except.error e =>
      ({ c with error := Option.some (wrapImportError e), enabled := false },
       ["Cannot load " ++ c.name])
    | Except.ok c1 =>
      let c2 := { c1 with error := Option.none, enabled := true }
      match c2.module with
      | Option.some m =>
        match m.onLoad with
        | Option.some (Except.error e) =>
          ({ c2 with error := Option.some (wrapImportError e), enabled := false },
           ["Cannot load " ++ c.name])
        | _ => (c2, [])
      | Option.none => (c2, [])
  else if !enabled && c.enabled then
    let log := match c.module with
      | Option.some m =>
        match m.onUnload with
        | Option.some (Except.error _) => ["Failed to on_unload " ++ c.name]
        | _ => []
      | Option.none => []
    ({ c with enabled := false }, log)
  else (c, [])

/-- `result` combination in the `call_extensions` handler: if the running
aggregate and the callback's return value are both lists, extend; otherwise a
non-`None` return value replaces the aggregate. -/
def combine (result : Value) (cbRes : Value) : Value :=
  match result, cbRes with
  | Value.vlist xs, Value.vlist ys => Value.vlist (xs ++ ys)
  | _, Value.none => result
  | _, v => v

/-- The loop body of the `call_extensions` handler: iterate the containers in
order, skipping disabled or module-less ones; look up the hook by name; a
raising hook appends a `(filename, method_name)` log entry and does not
disturb the aggregate; a returning hook feeds `combine`. -/
def dispatchGo (methodName : String) :
    List Container → Value → List (String × String) → Value × List (String × String)
  | [], result, log => (result, log)
  | c :: rest, result, log =>
    match c.enabled, c.module with
    | true, Option.some m =>
      match lookupHook m methodName with
      | Option.none => dispatchGo methodName rest result log
      | Option.some (Except.ok v) => dispatchGo methodName rest (combine result v) log
      | Option.some (Except.error _) =>
        dispatchGo methodName rest result (log ++ [(c.filename, methodName)])
    | _, _ => dispatchGo methodName rest result log

/-- One invocation of a `@call_extensions`-decorated handler over the
manager's container list (the core default body of every handler in the
source is empty, so the aggregate is the handler's return value). -/
def call_extensions (methodName : String) (containers : List Container) :
    Value × List (String × String) :=
  dispatchGo methodName containers Value.none []

/-- `os.path.basename`: the part after the last `/`. -/
def basename (p : String) : String :=
  String.mk ((p.toList.reverse.takeWhile (fun c => c ≠ '/')).reverse)

/-- Root part of `os.path.splitext` on a basename: split at the last dot
unless every character before that dot is itself a dot (so `".py"` and
`"..py"` keep their dot). -/
def splitextRoot (s : String) : String :=
  let cs := s.toList
  match cs.reverse.findIdx? (fun ch => ch = '.') with
  | Option.none => s
  | Option.some k =>
    let i := cs.length - 1 - k
    if (cs.take i).all (fun ch => ch = '.') then s
    else String.mk (cs.take i)

/-- `re.sub(r'^[0-9]*_', '', name)`: drop a maximal leading digit run when it
is immediately followed by `_`, together with that underscore. -/
def stripOrderPrefix (s : String) : String :=
  match s.toList.dropWhile Char.isDigit with
  | '_' :: tl => String.mk tl
  | _ => s

/-- Name derivation in `_find_extensions`:
`splitext(basename(filename))[0]` with the ordering prefix stripped. -/
def deriveName (filename : String) : String :=
  stripOrderPrefix (splitextRoot (basename filename))

/-- Lexicographic comparison by code point, Python's `<=` on strings (used as
the sort key comparison `key=lambda i: i[1]`). -/
def lexLe : List Char → List Char → Bool
  | [], _ => true
  | _ :: _, [] => false
  | a :: as, b :: bs =>
    if a.toNat < b.toNat then true
    else if b.toNat < a.toNat then false
    else lexLe as bs

/-- Insert one entry, keeping the partial list sorted by filename. -/
def insertByFilename (p : String × String) :
    List (String × String) → List (String × String)
  | [] => [p]
  | q :: rest =>
    if lexLe q.2.toList p.2.toList then q :: insertByFilename p rest
    else p :: q :: rest

/-- `sorted(extensions.items(), key=lambda i: i[1])`. -/
def sortByFilename (l : List (String × String)) : List (String × String) :=
  l.foldl (fun acc p => insertByFilename p acc) []

/-- `ExtensionManager._find_extensions` after the filename list is fixed:
`fsys` is the set of existing paths (`os.path.exists`).  Skipped entries are
empty or non-existing filenames; each kept filename is inserted into the
name→filename map under its derived name (later entries replace earlier ones);
the result is sorted by filename. -/
def find_extensions (filenames : List String) (fsys : List String) :
    List (String × String) :=
  let extensions := filenames.foldl
    (fun m f =>
      if f = "" || !(fsys.contains f) then m
      else setField m (deriveName f) f)
    []
  sortByFilename extensions

/-- The manager state touched by `_config_value_changed`: the container list
and the persisted `config.extensions.enabled` value (by the time the observer
runs, the configuration system has already stored the new value). -/
structure MState where
  containers : List Container
  enabledSet : List String

/-- The persisted-set update of one loop iteration: when the container was
being enabled but `set_enabled` left it disabled, its name is filtered out of
the current `config.extensions.enabled` value. -/
def cvcEs (ctx : UICtx) (newValue : List String) (c : Container)
    (es : List String) : List String :=
  if newValue.contains c.name
      && !((set_enabled ctx c (newValue.contains c.name)).1.enabled) then
    es.filter (fun x => x ≠ c.name)
  else es

/-- The loop of `_config_value_changed`: for each container whose enabled
state differs from membership in `new_value`, skip it when it is being forced
off but is mandatory in the current UI; otherwise apply `set_enabled`, and if
an enable attempt left the container disabled, remove its name from the
persisted enabled-set. -/
def cvcGo (ctx : UICtx) (newValue : List String) :
    List Container → List String → List Container × List String
  | [], es => ([], es)
  | c :: rest, es =>
    if newValue.contains c.name = c.enabled then
      (c :: (cvcGo ctx newValue rest es).1, (cvcGo ctx newValue rest es).2)
    else if !(newValue.contains c.name)
        && mandatory_in_current_ui ctx c.metadata then
      (c :: (cvcGo ctx newValue rest es).1, (cvcGo ctx newValue rest es).2)
    else
      ((set_enabled ctx c (newValue.contains c.name)).1
         :: (cvcGo ctx newValue rest (cvcEs ctx newValue c es)).1,
       (cvcGo ctx newValue rest (cvcEs ctx newValue c es)).2)

/-- `ExtensionManager._config_value_changed(name, old_value, new_value)`:
ignore keys other than `extensions.enabled`, otherwise run the loop above
over the containers and the persisted set. -/
def config_value_changed (ctx : UICtx) (st : MState) (key : String)
    (newValue : List String) : MState :=
  if key = "extensions.enabled" then
    ⟨(cvcGo ctx newValue st.containers st.enabledSet).1,
     (cvcGo ctx newValue st.containers st.enabledSet).2⟩
  else st

/-! ### Helper lemmas about association-list updates -/

theorem lookupField_setField_self (md : Metadata) (key v : String) :
    lookupField (setField md key v) key = Option.some v := by
  induction md with
  | nil => simp [setField, lookupField, alookup]
  | cons p rest ih =>
    rcases p with ⟨k, w⟩
    by_cases h : k = key
    · simp [setField, lookupField, alookup, h]
    · simpa [setField, lookupField, alookup, h] using ih

theorem lookupField_setField_ne (md : Metadata) (key v k : String) (h : k ≠ key) :
    lookupField (setField md key v) k = lookupField md k := by
  induction md with
  | nil => simp [setField, lookupField, alookup, Ne.symm h]
  | cons p rest ih =>
    rcases p with ⟨k', w⟩
    by_cases hp : k' = key
    · subst hp
      simp [setField, lookupField, alookup, Ne.symm h]
    · by_cases hk : k' = k
      · simp [setField, lookupField, alookup, hp, hk, h]
      · simpa [setField, lookupField, alookup, hp, hk] using ih

/-- C9: in every constructed `ExtensionMetadata`, `title` is the declared
value when one exists and the container's name otherwise, and `category` is
always the resolved display label — the `CATEGORY_DICT` lookup of the declared
key (`'other'` when undeclared), falling back to the `'Other'` label, which is
what both an absent and an unknown key resolve to. -/
theorem C9_metadata_title_and_category_resolved :
    (∀ (name : String) (raw : Metadata),
      lookupField (mkMetadata name raw) "title"
        = Option.some ((lookupField raw "title").getD name))
    ∧ (∀ (name : String) (raw : Metadata),
      lookupField (mkMetadata name raw) "category"
        = Option.some (categoryLabel ((lookupField raw "category").getD "other")))
    ∧ categoryLabel "other" = "Other"
    ∧ categoryLabel "an-unknown-category" = "Other" := by
  refine ⟨?_, ?_, by decide, by decide⟩
  · intro name raw
    unfold mkMetadata
    cases htitle : lookupField raw "title" with
    | none =>
      simp only [htitle, Option.isSome_none, Bool.false_eq_true, if_false]
      rw [lookupField_setField_ne _ "category" _ "title" (by decide),
        lookupField_setField_self]
      simp
    | some v =>
      simp only [htitle, Option.isSome_some, if_true]
      rw [lookupField_setField_ne _ "category" _ "title" (by decide), htitle]
      simp
  · intro name raw
    unfold mkMetadata
    cases htitle : lookupField raw "title" with
    | none =>
      simp only [htitle, Option.isSome_none, Bool.false_eq_true, if_false]
      rw [lookupField_setField_self,
        lookupField_setField_ne _ "title" _ "category" (by decide)]
    | some v =>
      simp only [htitle, Option.isSome_some, if_true]
      rw [lookupField_setField_self]

/-- C7: `check_ui` returns the default exactly when the field is absent;
otherwise it splits the declared value on commas, trims whitespace, drops
empty entries and is true iff some token's lowercasing names a true flag of
the UI context (absent flags read as false, so unknown tokens evaluate to
false); in particular `"gtk, cli"` against `{gtk: true, cli: false}` yields
true and against `{gtk: false, cli: false}` yields false. -/
theorem C7_check_ui_any_match :
    (∀ (ctx : UICtx) (md : Metadata) (t : String) (d : Bool),
      lookupField md t = Option.none → check_ui ctx md t d = d)
    ∧ (∀ (ctx : UICtx) (md : Metadata) (t : String) (d : Bool) (v : String),
      lookupField md t = Option.some v →
      check_ui ctx md t d = (uiTokens v).any (fun u => getattrUI ctx (pyLower u)))
    ∧ check_ui [("gtk", true), ("cli", false)] [("only_for", "gtk, cli")]
        "only_for" false = true
    ∧ check_ui [("gtk", false), ("cli", false)] [("only_for", "gtk, cli")]
        "only_for" true = false
    ∧ check_ui [("gtk", true), ("cli", true)] [("only_for", "some_new_ui")]
        "only_for" true = false := by
  refine ⟨?_, ?_, by decide, by decide, by decide⟩
  · intro ctx md t d h
    simp [check_ui, h]
  · intro ctx md t d v h
    simp [check_ui, h]

/-- Witness for C7: the absent-field branch at a concrete input. -/
theorem C7_check_ui_any_match_witness :
    check_ui [("gtk", true)] [("other_field", "x")] "only_for" true = true :=
  C7_check_ui_any_match.1 [("gtk", true)] [("other_field", "x")] "only_for" true rfl

/-- C10: when the declared value of a UI field produces no tokens (only
commas and whitespace), `check_ui` returns false — `any` over an empty token
list — not the supplied default; the default applies only when the field is
absent. -/
theorem C10_empty_token_list_yields_false :
    ∀ (ctx : UICtx) (md : Metadata) (t : String) (d : Bool) (v : String),
      lookupField md t = Option.some v → uiTokens v = [] →
      check_ui ctx md t d = false := by
  intro ctx md t d v h htok
  simp [check_ui, h, htok]

/-- Witness for C10: the field value `" , ,  "` with default `true` still
yields false. -/
theorem C10_empty_token_list_yields_false_witness :
    check_ui [("gtk", true)] [("only_for", " , ,  ")] "only_for" true = false :=
  C10_empty_token_list_yields_false [("gtk", true)] [("only_for", " , ,  ")]
    "only_for" true " , ,  " rfl (by decide)

/-! ### C1: enable with a failing import -/

/-- A container whose dynamic import raises `ImportError` with `.name` set to
the unresolved module `mutagen`. -/
def c1Container : Container :=
  { name := "importfail", filename := "importfail.py",
    metadata := mkMetadata "importfail" [],
    loadOutcome := LoadOutcome.raise (PyExc.importError (Option.some "mutagen")) }

/-- C1: on an import/module-resolution failure, `set_enabled(true)` leaves the
container disabled and stores an error carrying the unresolved module's name —
but the stored error is of the `MissingCommand` kind, not `MissingModule`:
the code wraps the `ImportError` in `MissingCommand(msg, module, exception)`
even though `MissingModule` is the class it defines for exactly this case (and
never uses anywhere). -/
theorem C1_import_failure_stores_missingCommand_not_missingModule :
    (set_enabled [] c1Container true).1.enabled = false
    ∧ (set_enabled [] c1Container true).1.error
        = Option.some (PyExc.missingCommand "Python module not found: mutagen" "mutagen")
    ∧ (∀ (msg dep : String), (set_enabled [] c1Container true).1.error
        ≠ Option.some (PyExc.missingModule msg dep)) := by
  refine ⟨by decide, by decide, ?_⟩
  intro msg dep
  rw [show (set_enabled [] c1Container true).1.error
      = Option.some (PyExc.missingCommand "Python module not found: mutagen" "mutagen")
    from by decide]
  simp

/-! ### C2: enable when the metadata is unavailable for the current UI -/

/-- A UI context in which the `gtk` flag is off. -/
def c2Ctx : UICtx := [("gtk", false), ("cli", true)]

/-- A gtk-only container in a non-gtk context; its import, were it attempted,
would raise (showing the load is skipped, not performed). -/
def c2Container : Container :=
  { name := "gtkonly", filename := "gtkonly.py",
    metadata := mkMetadata "gtkonly" [("only_for", "gtk")],
    loadOutcome := LoadOutcome.raise (PyExc.other "import never attempted") }

/-- C2 counterexample: the claim asserts `enabled` remains false after
`set_enabled(true)` on a container whose `available_for_current_ui` is false,
but `load_extension` returns silently and `set_enabled` then marks the
container enabled. -/
theorem C2_counterexample_enabled_becomes_true :
    ¬ ((set_enabled c2Ctx c2Container true).1.enabled = false) := by
  decide

/-- C2 amended: `set_enabled(true)` on a container whose metadata is not
available for the current UI leaves `module` null and records no error (and
logs nothing), but the container's `enabled` flag becomes true. -/
theorem C2_amended_unavailable_ui_silently_skips_load :
    ∀ (ctx : UICtx) (c : Container),
      c.enabled = false → c.module = Option.none →
      available_for_current_ui ctx c.metadata = false →
      (set_enabled ctx c true).1.module = Option.none
      ∧ (set_enabled ctx c true).1.error = Option.none
      ∧ (set_enabled ctx c true).1.enabled = true
      ∧ (set_enabled ctx c true).2 = [] := by
  intro ctx c h1 h2 h3
  rcases c with ⟨name, fn, mod, en, err, md, lo⟩
  simp_all [set_enabled, load_extension]

/-- Witness for C2's amended claim at the concrete gtk-only container. -/
theorem C2_amended_witness :
    (set_enabled c2Ctx c2Container true).1.module = Option.none
    ∧ (set_enabled c2Ctx c2Container true).1.error = Option.none
    ∧ (set_enabled c2Ctx c2Container true).1.enabled = true
    ∧ (set_enabled c2Ctx c2Container true).2 = [] :=
  C2_amended_unavailable_ui_silently_skips_load c2Ctx c2Container rfl rfl (by decide)

/-! ### C3: successful load, `on_load` hook raises -/

/-- A module whose `on_load` raises. -/
def c3Module : Module :=
  { onLoad := Option.some (Except.error (PyExc.other "boom in on_load")) }

/-- A container that loads fine but whose instance's `on_load` raises. -/
def c3Container : Container :=
  { name := "hookfail", filename := "hookfail.py",
    metadata := mkMetadata "hookfail" [],
    loadOutcome := LoadOutcome.ok c3Module }

/-- C3 counterexample: the claim asserts the container stays enabled with its
error cleared when `on_load` raises, but `on_load` runs inside the same
`try` as the load, so its exception disables the container and is stored. -/
theorem C3_counterexample_on_load_failure_reverts_enable :
    ¬ ((set_enabled [] c3Container true).1.enabled = true
       ∧ (set_enabled [] c3Container true).1.error = Option.none) := by
  decide

/-- C3 amended: when the module loads but `on_load` raises, the exception is
caught and logged (it never propagates — `set_enabled` is total here), the
(import-normalised) exception is stored as the container's error, `enabled`
is set back to false, and the loaded module handle is retained. -/
theorem C3_amended_on_load_failure_disables_and_stores_error :
    ∀ (ctx : UICtx) (c : Container) (m : Module) (e : PyExc),
      c.enabled = false → c.module = Option.none →
      available_for_current_ui ctx c.metadata = true →
      c.loadOutcome = LoadOutcome.ok m →
      m.onLoad = Option.some (Except.error e) →
      (set_enabled ctx c true).1.enabled = false
      ∧ (set_enabled ctx c true).1.error = Option.some (wrapImportError e)
      ∧ (set_enabled ctx c true).1.module = Option.some m
      ∧ (set_enabled ctx c true).2 = ["Cannot load " ++ c.name] := by
  intro ctx c m e h1 h2 h3 h4 h5
  rcases c with ⟨name, fn, mod, en, err, md, lo⟩
  simp_all [set_enabled, load_extension]

/-- Witness for C3's amended claim at the concrete hook-failing container. -/
theorem C3_amended_witness :
    (set_enabled [] c3Container true).1.enabled = false
    ∧ (set_enabled [] c3Container true).1.error
        = Option.some (wrapImportError (PyExc.other "boom in on_load"))
    ∧ (set_enabled [] c3Container true).1.module = Option.some c3Module
    ∧ (set_enabled [] c3Container true).2 = ["Cannot load " ++ c3Container.name] :=
  C3_amended_on_load_failure_disables_and_stores_error [] c3Container c3Module
    (PyExc.other "boom in on_load") rfl rfl (by decide) rfl rfl

/-! ### C4: per-container failure isolation in hook dispatch -/

/-- C4: dispatching a hook over three enabled, loaded containers where the
second's hook raises still invokes the first and third hooks — the aggregate
is built from exactly their return values — and the failure is logged once
with the offending container's filename and the hook name. -/
theorem C4_dispatch_isolates_failing_container :
    ∀ (n : String) (c1 c2 c3 : Container) (m1 m2 m3 : Module)
      (v1 v3 : Value) (e : PyExc),
      c1.enabled = true → c1.module = Option.some m1 →
      lookupHook m1 n = Option.some (Except.ok v1) →
      c2.enabled = true → c2.module = Option.some m2 →
      lookupHook m2 n = Option.some (Except.error e) →
      c3.enabled = true → c3.module = Option.some m3 →
      lookupHook m3 n = Option.some (Except.ok v3) →
      call_extensions n [c1, c2, c3]
        = (combine (combine Value.none v1) v3, [(c2.filename, n)]) := by
  intro n c1 c2 c3 m1 m2 m3 v1 v3 e h1 h2 h3 h4 h5 h6 h7 h8 h9
  simp [call_extensions, dispatchGo, h1, h2, h3, h4, h5, h6, h7, h8, h9]

/-- Containers for C4's witness: A and C contribute menu entries, B raises. -/
def c4A : Container :=
  { name := "A", filename := "a.py", enabled := true,
    module := Option.some
      { hooks := [("on_create_menu", Except.ok (Value.vlist [("x", "f")]))] } }

def c4B : Container :=
  { name := "B", filename := "b.py", enabled := true,
    module := Option.some
      { hooks := [("on_create_menu", Except.error (PyExc.other "bang"))] } }

def c4C : Container :=
  { name := "C", filename := "c.py", enabled := true,
    module := Option.some
      { hooks := [("on_create_menu", Except.ok (Value.vlist [("y", "g")]))] } }

/-- Witness for C4 at three concrete containers. -/
theorem C4_dispatch_isolates_failing_container_witness :
    call_extensions "on_create_menu" [c4A, c4B, c4C]
      = (combine (combine Value.none (Value.vlist [("x", "f")]))
           (Value.vlist [("y", "g")]),
         [(c4B.filename, "on_create_menu")]) :=
  C4_dispatch_isolates_failing_container "on_create_menu" c4A c4B c4C
    _ _ _ (Value.vlist [("x", "f")]) (Value.vlist [("y", "g")])
    (PyExc.other "bang") rfl rfl rfl rfl rfl rfl rfl rfl rfl

/-! ### C5: visit order, skipping, and result aggregation -/

/-- C5: dispatch visits the containers in list (construction) order, skipping
disabled or unloaded ones; two list results concatenate; otherwise a
non-`None` result replaces the aggregate and a `None` result leaves it; and
`on_create_menu` over extension A returning `[("x", f)]` and extension B
returning `[("y", g)]` yields the list with both entries in dispatch order
(the aggregate is what the handler returns; the core default bodies in the
source are empty). -/
theorem C5_aggregation_policy :
    (∀ (n : String) (c : Container) (rest : List Container) (res : Value)
       (log : List (String × String)),
      (c.enabled = false ∨ c.module = Option.none) →
      dispatchGo n (c :: rest) res log = dispatchGo n rest res log)
    ∧ (∀ (xs ys : List (String × String)),
      combine (Value.vlist xs) (Value.vlist ys) = Value.vlist (xs ++ ys))
    ∧ (∀ (res v : Value), v ≠ Value.none →
      ((∀ xs, res ≠ Value.vlist xs) ∨ (∀ ys, v ≠ Value.vlist ys)) →
      combine res v = v)
    ∧ (∀ (res : Value), combine res Value.none = res)
    ∧ (∀ (A B : Container) (mA mB : Module) (x y : String × String),
      A.enabled = true → A.module = Option.some mA →
      lookupHook mA "on_create_menu" = Option.some (Except.ok (Value.vlist [x])) →
      B.enabled = true → B.module = Option.some mB →
      lookupHook mB "on_create_menu" = Option.some (Except.ok (Value.vlist [y])) →
      call_extensions "on_create_menu" [A, B] = (Value.vlist [x, y], [])) := by
  refine ⟨?_, ?_, ?_, ?_, ?_⟩
  · intro n c rest res log h
    rcases h with h | h
    · simp [dispatchGo, h]
    · cases he : c.enabled <;> simp [dispatchGo, he, h]
  · intro xs ys
    rfl
  · intro res v hv hcase
    rcases hcase with h | h
    · cases res <;> cases v <;> first
        | rfl
        | exact absurd rfl hv
        | exact absurd rfl (h _)
    · cases res <;> cases v <;> first
        | rfl
        | exact absurd rfl hv
        | exact absurd rfl (h _)
  · intro res
    cases res <;> rfl
  · intro A B mA mB x y h1 h2 h3 h4 h5 h6
    simp [call_extensions, dispatchGo, h1, h2, h3, h4, h5, h6, combine]

/-- Containers for C5's witness. -/
def c5A : Container :=
  { name := "A", filename := "a.py", enabled := true,
    module := Option.some
      { hooks := [("on_create_menu", Except.ok (Value.vlist [("x", "f")]))] } }

def c5B : Container :=
  { name := "B", filename := "b.py", enabled := true,
    module := Option.some
      { hooks := [("on_create_menu", Except.ok (Value.vlist [("y", "g")]))] } }

/-- Witness for C5: the two-extension `on_create_menu` example. -/
theorem C5_aggregation_policy_witness :
    call_extensions "on_create_menu" [c5A, c5B]
      = (Value.vlist [("x", "f"), ("y", "g")], []) :=
  C5_aggregation_policy.2.2.2.2 c5A c5B _ _ ("x", "f") ("y", "g")
    rfl rfl rfl rfl rfl rfl

/-! ### C6: discovery — name derivation, override, sort order -/

/-- Ordering of discovery entries by filename. -/
def fileLe (p q : String × String) : Prop :=
  lexLe p.2.toList q.2.toList = true

theorem lexLe_total (as bs : List Char) :
    lexLe as bs = true ∨ lexLe bs as = true := by
  induction as generalizing bs with
  | nil => left; rfl
  | cons a as ih =>
    cases bs with
    | nil => right; rfl
    | cons b bs =>
      by_cases hab : a.toNat < b.toNat
      · left; simp [lexLe, hab]
      · by_cases hba : b.toNat < a.toNat
        · right; simp [lexLe, hba]
        · rcases ih bs with h | h
          · left; simp [lexLe, hab, hba, h]
          · right; simp [lexLe, hba, hab, h]

theorem lexLe_trans (as bs cs : List Char) (h1 : lexLe as bs = true)
    (h2 : lexLe bs cs = true) : lexLe as cs = true := by
  induction as generalizing bs cs with
  | nil => rfl
  | cons a as ih =>
    cases bs with
    | nil => simp [lexLe] at h1
    | cons b bs =>
      cases cs with
      | nil => simp [lexLe] at h2
      | cons c cs =>
        simp only [lexLe] at h1 h2 ⊢
        by_cases hab : a.toNat < b.toNat
        · by_cases hcb : c.toNat < b.toNat
          · rw [if_neg (by omega), if_pos hcb] at h2
            exact absurd h2 (by simp)
          · by_cases hbc : b.toNat < c.toNat
            · rw [if_pos (by omega)]
            · rw [if_pos (by omega)]
        · by_cases hba : b.toNat < a.toNat
          · rw [if_neg hab, if_pos hba] at h1
            exact absurd h1 (by simp)
          · rw [if_neg hab, if_neg hba] at h1
            by_cases hbc : b.toNat < c.toNat
            · rw [if_pos (by omega)]
            · by_cases hcb : c.toNat < b.toNat
              · rw [if_neg hbc, if_pos hcb] at h2
                exact absurd h2 (by simp)
              · rw [if_neg hbc, if_neg hcb] at h2
                rw [if_neg (by omega), if_neg (by omega)]
                exact ih bs cs h1 h2

theorem mem_insertByFilename {x p : String × String}
    {l : List (String × String)} :
    x ∈ insertByFilename p l ↔ x = p ∨ x ∈ l := by
  induction l with
  | nil => simp [insertByFilename]
  | cons q rest ih =>
    simp only [insertByFilename]
    by_cases h : lexLe q.2.toList p.2.toList = true
    · rw [if_pos h]
      simp only [List.mem_cons, ih]
      tauto
    · rw [if_neg h]
      simp only [List.mem_cons]

theorem pairwise_insertByFilename (p : String × String)
    (l : List (String × String)) (h : l.Pairwise fileLe) :
    (insertByFilename p l).Pairwise fileLe := by
  induction l with
  | nil => simp [insertByFilename]
  | cons q rest ih =>
    rcases List.pairwise_cons.mp h with ⟨hq, hrest⟩
    simp only [insertByFilename]
    by_cases hle : lexLe q.2.toList p.2.toList = true
    · rw [if_pos hle]
      refine List.pairwise_cons.mpr ⟨?_, ih hrest⟩
      intro x hx
      rcases mem_insertByFilename.mp hx with rfl | hx'
      · exact hle
      · exact hq x hx'
    · have hpq : lexLe p.2.toList q.2.toList = true :=
        (lexLe_total q.2.toList p.2.toList).resolve_left hle
      rw [if_neg hle]
      refine List.pairwise_cons.mpr ⟨?_, h⟩
      intro x hx
      rcases List.mem_cons.mp hx with rfl | hx'
      · exact hpq
      · exact lexLe_trans _ _ _ hpq (hq x hx')

theorem pairwise_sortByFilename (l : List (String × String)) :
    (sortByFilename l).Pairwise fileLe := by
  suffices h : ∀ acc : List (String × String), acc.Pairwise fileLe →
      (l.foldl (fun acc p => insertByFilename p acc) acc).Pairwise fileLe by
    exact h [] (by simp)
  induction l with
  | nil => intro acc hacc; simpa using hacc
  | cons p rest ih =>
    intro acc hacc
    exact ih _ (pairwise_insertByFilename p acc hacc)

/-- C6: a candidate filename's name is the basename with extension and
leading numeric-and-underscore ordering prefix stripped (`"10_foo.py"` →
`"foo"`); a later existing candidate with the same derived name replaces an
earlier one, so `"10_foo.py"` and `"foo.py"` in one pass give exactly one
entry named `"foo"` and a same-named user file wins over the built-in; the
returned pairs are sorted by filename. -/
theorem C6_discovery_names_override_and_sorted :
    deriveName "10_foo.py" = "foo"
    ∧ (∀ (f1 f2 : String) (fsys : List String),
      f1 ≠ "" → f2 ≠ "" → fsys.contains f1 = true → fsys.contains f2 = true →
      deriveName f1 = deriveName f2 →
      find_extensions [f1, f2] fsys = [(deriveName f2, f2)])
    ∧ find_extensions ["10_foo.py", "foo.py"] ["10_foo.py", "foo.py"]
        = [("foo", "foo.py")]
    ∧ (∀ (filenames fsys : List String),
      (find_extensions filenames fsys).Pairwise fileLe) := by
  refine ⟨by decide, ?_, by decide, ?_⟩
  · intro f1 f2 fsys h1 h2 h3 h4 h5
    have h3' : f1 ∈ fsys := by simpa using h3
    have h4' : f2 ∈ fsys := by simpa using h4
    simp [find_extensions, List.foldl, h1, h2, h3', h4', h5, setField,
      sortByFilename, insertByFilename]
  · intro filenames fsys
    simpa [find_extensions] using
      pairwise_sortByFilename
        (filenames.foldl
          (fun m f =>
            if f = "" || !(fsys.contains f) then m
            else setField m (deriveName f) f)
          [])

/-- Witness for C6's override clause: a built-in `10_foo.py` and a user
`foo.py` collapse to one entry keeping the user filename. -/
theorem C6_discovery_witness :
    find_extensions ["/builtin/10_foo.py", "/user/foo.py"]
        ["/builtin/10_foo.py", "/user/foo.py"]
      = [(deriveName "/user/foo.py", "/user/foo.py")] :=
  C6_discovery_names_override_and_sorted.2.1 "/builtin/10_foo.py" "/user/foo.py"
    ["/builtin/10_foo.py", "/user/foo.py"]
    (by decide) (by decide) (by decide) (by decide) (by decide)

/-! ### C8: reverting the persisted enabled-set on a failed enable -/

theorem cvcGo_snd_subset (ctx : UICtx) (nv : List String) :
    ∀ (cs : List Container) (es : List String) (x : String),
      x ∈ (cvcGo ctx nv cs es).2 → x ∈ es := by
  intro cs
  induction cs with
  | nil =>
    intro es x hx
    simpa [cvcGo] using hx
  | cons c rest ih =>
    intro es x hx
    simp only [cvcGo] at hx
    by_cases h1 : nv.contains c.name = c.enabled
    · rw [if_pos h1] at hx
      exact ih es x hx
    · rw [if_neg h1] at hx
      by_cases h2 : (!(nv.contains c.name)
          && mandatory_in_current_ui ctx c.metadata) = true
      · rw [if_pos h2] at hx
        exact ih es x hx
      · rw [if_neg h2] at hx
        have hx' := ih _ x hx
        unfold cvcEs at hx'
        by_cases h3 : (nv.contains c.name
            && !((set_enabled ctx c (nv.contains c.name)).1.enabled)) = true
        · rw [if_pos h3] at hx'
          exact List.mem_of_mem_filter hx'
        · rwa [if_neg h3] at hx'

theorem cvcGo_enable_failure_removes (ctx : UICtx) (nv : List String)
    (c : Container) (hEn : c.enabled = false)
    (hMem : nv.contains c.name = true)
    (hFail : (set_enabled ctx c true).1.enabled = false) :
    ∀ (cs1 cs2 : List Container) (es : List String),
      c.name ∉ (cvcGo ctx nv (cs1 ++ c :: cs2) es).2 := by
  intro cs1
  induction cs1 with
  | nil =>
    intro cs2 es
    simp only [List.nil_append, cvcGo]
    rw [if_neg (by rw [hMem, hEn]; simp)]
    rw [if_neg (by rw [hMem]; simp)]
    intro hx
    have hx' := cvcGo_snd_subset ctx nv cs2 _ _ hx
    unfold cvcEs at hx'
    rw [if_pos (by rw [hMem, hFail]; simp)] at hx'
    rcases List.mem_filter.mp hx' with ⟨-, hne⟩
    simp at hne
  | cons a as ih =>
    intro cs2 es
    simp only [List.cons_append, cvcGo]
    by_cases h1 : nv.contains a.name = a.enabled
    · rw [if_pos h1]
      exact ih cs2 es
    · rw [if_neg h1]
      by_cases h2 : (!(nv.contains a.name)
          && mandatory_in_current_ui ctx a.metadata) = true
      · rw [if_pos h2]
        exact ih cs2 es
      · rw [if_neg h2]
        exact ih cs2 _

/-- C8: after a configuration change to the enabled-extension set, a
container whose enable attempt failed (it is still disabled after
`set_enabled(true)`) has its name removed from the persisted enabled-set —
absent afterward wherever it sat in the container list and whatever the set
held before; and a UI-mandatory enabled container whose name is missing from
the new value is skipped: it stays in place enabled and the persisted set is
untouched by its iteration. -/
theorem C8_enable_failure_reverts_persisted_set :
    (∀ (ctx : UICtx) (st : MState) (cs1 cs2 : List Container) (c : Container)
       (newV : List String),
      st.containers = cs1 ++ c :: cs2 →
      c.enabled = false → newV.contains c.name = true →
      (set_enabled ctx c true).1.enabled = false →
      c.name ∉ (config_value_changed ctx st "extensions.enabled" newV).enabledSet)
    ∧ (∀ (ctx : UICtx) (newV : List String) (c : Container)
       (cs : List Container) (es : List String),
      c.enabled = true → newV.contains c.name = false →
      mandatory_in_current_ui ctx c.metadata = true →
      cvcGo ctx newV (c :: cs) es
        = (c :: (cvcGo ctx newV cs es).1, (cvcGo ctx newV cs es).2)) := by
  constructor
  · intro ctx st cs1 cs2 c newV hcont hEn hMem hFail
    simp only [config_value_changed, if_pos rfl]
    rw [hcont]
    exact cvcGo_enable_failure_removes ctx newV c hEn hMem hFail cs1 cs2
      st.enabledSet
  · intro ctx newV c cs es hEn hMem hMand
    simp only [cvcGo]
    rw [if_neg (by rw [hMem, hEn]; simp)]
    rw [if_pos (by rw [hMem, hMand]; simp)]

/-- A container whose import raises, for C8's witness. -/
def c8Container : Container :=
  { name := "failing", filename := "failing.py",
    metadata := mkMetadata "failing" [],
    loadOutcome := LoadOutcome.raise (PyExc.other "broken extension") }

/-- The manager state for C8's witness: the failing container is present and
its name already sits in the persisted enabled-set. -/
def c8State : MState :=
  { containers := [c8Container], enabledSet := ["failing", "someother"] }

/-- Witness for C8: enabling `failing` fails, and its name is gone from the
persisted set afterward even though it was present before. -/
theorem C8_enable_failure_reverts_persisted_set_witness :
    "failing" ∉ (config_value_changed [] c8State "extensions.enabled"
      ["failing", "someother"]).enabledSet :=
  C8_enable_failure_reverts_persisted_set.1 [] c8State [] [] c8Container
    ["failing", "someother"] rfl rfl (by decide) (by decide)

end Gpodder
